import Mathlib

set_option maxRecDepth 40000

/-!
Verification of the OncoGenie RAG pipeline (`src/index.py`).

The development shallowly embeds the pipeline: pure helpers become Lean
functions; every external call (PubMed search, PubMed fetch, Bedrock
inference) becomes an explicit response value passed in; Python exceptions
become `Except` values, and a `try/except` block becomes a `match` on the
guarded computation.  The regular-expression extractions of
`fetch_abstracts` are embedded as executable scanners that reproduce the
leftmost, lazy-quantifier semantics of the concrete patterns used by the
source (all patterns involved are concatenations of literals and lazy
wildcards, so their matching behaviour reduces to iterated first-occurrence
search, as argued in the comments below).
-/

namespace Oncogenie

/-! ### First-occurrence string search

`findSplit needle hay` returns `(pre, post)` where `pre` is the part of
`hay` strictly before the first occurrence of `needle` and `post` the part
strictly after that occurrence, or `none` when `needle` does not occur. -/

def findSplit (needle : List Char) : List Char → Option (List Char × List Char)
  | [] => if needle.isEmpty then some ([], []) else none
  | c :: cs =>
    if needle.isPrefixOf (c :: cs) then some ([], (c :: cs).drop needle.length)
    else
      match findSplit needle cs with
      | some (pre, post) => some (c :: pre, post)
      | none => none

/-- Lazy search `A(.*?)B` (DOTALL) for literal `a`, `b`: the leftmost match
starts at the first occurrence of `a`; if no `b` follows it, no `b` follows
any later occurrence of `a` either, so the whole search fails.  The group is
the text up to the first `b` after that `a`. -/
def searchBetween (a b hay : List Char) : Option (List Char) :=
  match findSplit a hay with
  | none => none
  | some (_, rest) =>
    match findSplit b rest with
    | none => none
    | some (content, _) => some content

/-- Lazy search `A.*?M(.*?)B` (DOTALL) for literals `a`, `m`, `b`.  By the
same first-occurrence argument as `searchBetween`, the match is: first `a`,
then first `m` after it, then the group runs to the first `b` after that.
This models both `<AbstractText.*?>(.*?)</AbstractText>` (with `m = ">"`)
and `<PubDate>.*?<Year>(.*?)</Year>`. -/
def searchTag3 (a m b hay : List Char) : Option (List Char) :=
  match findSplit a hay with
  | none => none
  | some (_, r1) =>
    match findSplit m r1 with
    | none => none
    | some (_, r2) =>
      match findSplit b r2 with
      | none => none
      | some (content, _) => some content

/-- Lazy search `A(.*?)B` without DOTALL: the group may not contain a
newline.  At an occurrence of `a`, the group runs to the first `b` after it;
if that span contains a newline the regex engine resumes at the next
occurrence of `a`.  The literal `a` used by the source
(`<PMID Version="1">`) contains exactly one `<`, at its start, so
occurrences cannot overlap and resuming the scan after the end of the
current occurrence is faithful. -/
def searchNoNlFuel (a b : List Char) : Nat → List Char → Option (List Char)
  | 0, _ => none
  | Nat.succ fuel, hay =>
    match findSplit a hay with
    | none => none
    | some (_, rest) =>
      match findSplit b rest with
      | none => none
      | some (content, _) =>
        if content.contains '\n' then searchNoNlFuel a b fuel rest
        else some content

def searchBetweenNoNl (a b hay : List Char) : Option (List Char) :=
  searchNoNlFuel a b (hay.length + 1) hay

/-- `re.findall (A(.*?)B, DOTALL)`: repeatedly take the leftmost match and
resume after its end.  The fuel `hay.length + 1` is enough because every
iteration drops at least the nonempty needles from the text. -/
def findAllFuel (a b : List Char) : Nat → List Char → List (List Char)
  | 0, _ => []
  | Nat.succ fuel, hay =>
    match findSplit a hay with
    | none => []
    | some (_, rest) =>
      match findSplit b rest with
      | none => []
      | some (content, post) => content :: findAllFuel a b fuel post

def findAllBetween (a b hay : List Char) : List (List Char) :=
  findAllFuel a b (hay.length + 1) hay

/-! ### `re.sub(r"<[^>]+>", "", s)` — markup stripping -/

/-- Scan to the first `>` and return what follows it. -/
def tagCloseRest : List Char → Option (List Char)
  | [] => none
  | '>' :: cs => some cs
  | _ :: cs => tagCloseRest cs

/-- After a `<`, the pattern `[^>]+>` needs at least one non-`>` character
and then runs (greedily, hence exactly) to the first `>`. -/
def tagClose : List Char → Option (List Char)
  | [] => none
  | '>' :: _ => none
  | _ :: cs => tagCloseRest cs

def stripTagsFuel : Nat → List Char → List Char
  | 0, cs => cs
  | Nat.succ fuel, cs =>
    match cs with
    | [] => []
    | '<' :: rest =>
      match tagClose rest with
      | some after => stripTagsFuel fuel after
      | none => '<' :: stripTagsFuel fuel rest
    | c :: rest => c :: stripTagsFuel fuel rest

def stripTags (cs : List Char) : List Char :=
  stripTagsFuel (cs.length + 1) cs

/-! ### Python `str.strip()` and the markdown-fence `re.sub` -/

def isPySpace (c : Char) : Bool :=
  c = ' ' || c = '\t' || c = '\n' || c = '\r' || c = '\x0b' || c = '\x0c'

def pyStrip (cs : List Char) : List Char :=
  ((cs.dropWhile isPySpace).reverse.dropWhile isPySpace).reverse

def pyStripStr (s : String) : String :=
  String.mk (pyStrip s.data)

/-- `re.sub(r"```json|```", "", s)`: leftmost scan, the alternative
`"```json"` is tried before `"```"` at each position, matches are removed
and scanning resumes after each match. -/
def stripFencesFuel : Nat → List Char → List Char
  | 0, cs => cs
  | Nat.succ fuel, cs =>
    match cs with
    | [] => []
    | c :: rest =>
      if ("```json".data).isPrefixOf (c :: rest) then
        stripFencesFuel fuel ((c :: rest).drop 7)
      else if ("```".data).isPrefixOf (c :: rest) then
        stripFencesFuel fuel ((c :: rest).drop 3)
      else c :: stripFencesFuel fuel rest

def stripFences (cs : List Char) : List Char :=
  stripFencesFuel (cs.length + 1) cs

/-- Substring test (used to state "query contains `smoking`"). -/
def containsSub (needle hay : String) : Bool :=
  (findSplit needle.data hay.data).isSome

/-! ### JSON values and a model of `json.loads`

`num` keeps the matched numeral lexeme: no claim depends on numeric
values, only on parse success and on string/array/object structure.
Objects are association lists; duplicate keys are collapsed during parsing
exactly as `dict` construction does (later value wins, original position
kept), so parsed objects have pairwise-distinct keys. -/

inductive Json where
  | null
  | bool (b : Bool)
  | num (lexeme : String)
  | str (s : String)
  | arr (elems : List Json)
  | obj (fields : List (String × Json))

def Json.isObj : Json → Bool
  | .obj _ => true
  | _ => false

def Json.isStr : Json → Bool
  | .str _ => true
  | _ => false

def Json.getStr : Json → Option String
  | .str s => some s
  | _ => none

/-- First-match association lookup; parsed objects have distinct keys,
so this is Python dict lookup. -/
def alookup (k : String) : List (String × Json) → Option Json
  | [] => none
  | p :: rest => if p.1 = k then some p.2 else alookup k rest

/-- Python `d[k] = v`: replace the value in place when the key exists,
append otherwise. -/
def insertKey (kvs : List (String × Json)) (k : String) (v : Json) :
    List (String × Json) :=
  if kvs.any (fun p => p.1 == k) then
    kvs.map (fun p => if p.1 = k then (k, v) else p)
  else kvs ++ [(k, v)]

def isJsonWs (c : Char) : Bool :=
  c = ' ' || c = '\t' || c = '\n' || c = '\r'

def skipWs (cs : List Char) : List Char :=
  cs.dropWhile isJsonWs

def hexVal (c : Char) : Option Nat :=
  if c.isDigit then some (c.toNat - 48)
  else if 'a' ≤ c ∧ c ≤ 'f' then some (c.toNat - 87)
  else if 'A' ≤ c ∧ c ≤ 'F' then some (c.toNat - 55)
  else none

def escChar (c : Char) : Option Char :=
  match c with
  | '"' => some '"'
  | '\\' => some '\\'
  | '/' => some '/'
  | 'b' => some '\x08'
  | 'f' => some '\x0c'
  | 'n' => some '\n'
  | 'r' => some '\r'
  | 't' => some '\t'
  | _ => none

/-- Body of a JSON string literal, after the opening quote.  `\uXXXX`
escapes are decoded code-unit-wise (surrogate pairs are not recombined;
no input in this development uses them).  Raw control characters are
rejected, as by the strict decoder. -/
def pjStringBody : Nat → List Char → Option (List Char × List Char)
  | 0, _ => none
  | Nat.succ fuel, cs =>
    match cs with
    | [] => none
    | '"' :: rest => some ([], rest)
    | '\\' :: 'u' :: a :: b :: c :: d :: rest => do
      let ha ← hexVal a
      let hb ← hexVal b
      let hc ← hexVal c
      let hd ← hexVal d
      let (chars, rest2) ← pjStringBody fuel rest
      pure (Char.ofNat (((ha * 16 + hb) * 16 + hc) * 16 + hd) :: chars, rest2)
    | '\\' :: e :: rest => do
      let ec ← escChar e
      let (chars, rest2) ← pjStringBody fuel rest
      pure (ec :: chars, rest2)
    | c :: rest =>
      if c.toNat < 32 then none
      else do
        let (chars, rest2) ← pjStringBody fuel rest
        pure (c :: chars, rest2)

def spanDigits (cs : List Char) : List Char × List Char :=
  (cs.takeWhile Char.isDigit, cs.dropWhile Char.isDigit)

def pjIntPart : List Char → Option (List Char × List Char)
  | [] => none
  | '0' :: rest => some (['0'], rest)
  | c :: rest =>
    if c.isDigit then
      let (ds, r) := spanDigits rest
      some (c :: ds, r)
    else none

def pjFracPart : List Char → Option (List Char × List Char)
  | '.' :: rest =>
    let (ds, r) := spanDigits rest
    if ds.isEmpty then none else some ('.' :: ds, r)
  | cs => some ([], cs)

def pjExpPart : List Char → Option (List Char × List Char)
  | [] => some ([], [])
  | c :: rest =>
    if c = 'e' ∨ c = 'E' then
      match rest with
      | [] => none
      | s :: rest2 =>
        if s = '+' ∨ s = '-' then
          let (ds, r) := spanDigits rest2
          if ds.isEmpty then none else some (c :: s :: ds, r)
        else
          let (ds, r) := spanDigits rest
          if ds.isEmpty then none else some (c :: ds, r)
    else some ([], c :: rest)

/-- JSON number grammar (strict): optional minus, `0` or nonzero-led
digits, optional fraction, optional exponent.  Returns the lexeme. -/
def pjNumber (cs : List Char) : Option (List Char × List Char) :=
  match cs with
  | '-' :: rest => do
    let (ip, r1) ← pjIntPart rest
    let (fp, r2) ← pjFracPart r1
    let (ep, r3) ← pjExpPart r2
    pure ('-' :: (ip ++ fp ++ ep), r3)
  | _ => do
    let (ip, r1) ← pjIntPart cs
    let (fp, r2) ← pjFracPart r1
    let (ep, r3) ← pjExpPart r2
    pure (ip ++ fp ++ ep, r3)

mutual

def pjVal : Nat → List Char → Option (Json × List Char)
  | 0, _ => none
  | Nat.succ fuel, cs0 =>
    let cs := skipWs cs0
    match cs with
    | [] => none
    | '"' :: rest => do
      let (chars, r) ← pjStringBody (rest.length + 1) rest
      pure (Json.str (String.mk chars), r)
    | '\x7b' :: rest =>
      let r1 := skipWs rest
      match r1 with
      | '\x7d' :: r2 => some (Json.obj [], r2)
      | _ => do
        let (pairs, r2) ← pjMembers fuel r1
        pure (Json.obj (pairs.foldl (fun acc p => insertKey acc p.1 p.2) []), r2)
    | '[' :: rest =>
      let r1 := skipWs rest
      match r1 with
      | ']' :: r2 => some (Json.arr [], r2)
      | _ => do
        let (elems, r2) ← pjElems fuel r1
        pure (Json.arr elems, r2)
    | _ =>
      if ("null".data).isPrefixOf cs then some (Json.null, cs.drop 4)
      else if ("true".data).isPrefixOf cs then some (Json.bool true, cs.drop 4)
      else if ("false".data).isPrefixOf cs then some (Json.bool false, cs.drop 5)
      else if ("NaN".data).isPrefixOf cs then some (Json.num "NaN", cs.drop 3)
      else if ("Infinity".data).isPrefixOf cs then some (Json.num "Infinity", cs.drop 8)
      else if ("-Infinity".data).isPrefixOf cs then some (Json.num "-Infinity", cs.drop 9)
      else do
        let (lex, r) ← pjNumber cs
        pure (Json.num (String.mk lex), r)

def pjElems : Nat → List Char → Option (List Json × List Char)
  | 0, _ => none
  | Nat.succ fuel, cs => do
    let (v, r1) ← pjVal fuel cs
    match skipWs r1 with
    | ',' :: r3 => do
      let (vs, r4) ← pjElems fuel r3
      pure (v :: vs, r4)
    | ']' :: r3 => pure ([v], r3)
    | _ => none

def pjMembers : Nat → List Char → Option (List (String × Json) × List Char)
  | 0, _ => none
  | Nat.succ fuel, cs =>
    match skipWs cs with
    | '"' :: rest => do
      let (kchars, r1) ← pjStringBody (rest.length + 1) rest
      match skipWs r1 with
      | ':' :: r2 => do
        let (v, r3) ← pjVal fuel r2
        match skipWs r3 with
        | ',' :: r4 => do
          let (ps, r5) ← pjMembers fuel r4
          pure ((String.mk kchars, v) :: ps, r5)
        | '\x7d' :: r4 => pure ([(String.mk kchars, v)], r4)
        | _ => none
      | _ => none
    | _ => none

end

/-- `json.loads`: one value, surrounded only by whitespace.  The fuel
`2 * length + 2` over-approximates the recursion the input can drive (each
two nested calls consume at least one character); in the source a deeply
nested input is bounded by the interpreter recursion limit instead. -/
def Json.parse (s : String) : Option Json :=
  match pjVal (2 * s.data.length + 2) s.data with
  | some (j, rest) => if (skipWs rest).isEmpty then some j else none
  | none => none

/-! ### Parse step of `fetch_abstracts` (src/index.py lines 139-155) -/

structure LitRecord where
  title : String
  abstract : String
  url : String
  doi : String
  year : Option String
deriving DecidableEq

/-- The f-string `https://pubmed.ncbi.nlm.nih.gov/{pmid}/` (written here
by appending, lines 152-153). -/
def pubmedRecordUrl (pmid : List Char) : String :=
  String.mk ("https://pubmed.ncbi.nlm.nih.gov/".data ++ pmid ++ "/".data)

/-- One `<PubmedArticle>` block (lines 141-155): the four regex searches,
the `if title_match and abstract_match` guard, markup stripping and
whitespace trimming of title and abstract, the `"unknown"` fallback for a
missing PMID, and the url/doi/year construction. -/
def parseArticle (article : List Char) : Option LitRecord :=
  let title_match := searchBetween ("<ArticleTitle>".data) ("</ArticleTitle>".data) article
  let abstract_match := searchTag3 ("<AbstractText".data) (">".data) ("</AbstractText>".data) article
  let pmid_match := searchBetweenNoNl ("<PMID Version=\"1\">".data) ("</PMID>".data) article
  let year_match := searchTag3 ("<PubDate>".data) ("<Year>".data) ("</Year>".data) article
  match title_match, abstract_match with
  | some t, some ab =>
    let pmid :=
      match pmid_match with
      | some p => pyStrip p
      | none => "unknown".data
    some
      { title := String.mk (pyStrip (stripTags t))
        abstract := String.mk (pyStrip (stripTags ab))
        url := pubmedRecordUrl pmid
        doi := pubmedRecordUrl pmid
        year := year_match.map (fun y => String.mk (pyStrip y)) }
  | _, _ => none

/-- `re.findall(r"<PubmedArticle>(.*?)</PubmedArticle>", xml, DOTALL)`
followed by the per-article loop; appending only the kept records is
`filterMap`. -/
def parseArticles (xml : String) : List LitRecord :=
  (findAllBetween ("<PubmedArticle>".data) ("</PubmedArticle>".data) xml.data).filterMap
    parseArticle

/-! ### External responses and Python exceptions

Each external call of the source is replaced by its observable outcome:
`err` stands for any exception raised by `urllib.request.urlopen`, by
`.read()`, or by byte decoding (transport error, timeout, bad encoding).
Python exceptions raised by the pipeline's own code become `Except.error`
with a constructor per exception class. -/

inductive PyErr where
  | clientError
  | jsonDecodeError
  | typeError
  | keyError
  | indexError
  | attributeError
deriving DecidableEq

inductive SearchResp where
  | err
  | ok (body : String)

inductive FetchResp where
  | err
  | ok (body : String)

inductive BedrockResp where
  | clientError
  | ok (body : String)

/-- Python `d.get(k, dflt)`: raises `AttributeError` when the receiver is
not a dict. -/
def pyDictGet (j : Json) (k : String) (dflt : Json) : Except PyErr Json :=
  match j with
  | .obj kvs =>
    match alookup k kvs with
    | some v => .ok v
    | none => .ok dflt
  | _ => .error .attributeError

/-- `search_pubmed` (lines 101-117).  The whole body sits inside
`try/except Exception`, so a transport failure, an unparseable body, or a
non-dict level reached by `.get` all yield `[]`.  The extracted `idlist`
is returned as-is (the source does not check it is a list of strings). -/
def search_pubmed (resp : SearchResp) : Json :=
  match resp with
  | .err => .arr []
  | .ok body =>
    match Json.parse body with
    | none => .arr []
    | some data =>
      match pyDictGet data "esearchresult" (.obj []) with
      | .error _ => .arr []
      | .ok es =>
        match pyDictGet es "idlist" (.arr []) with
        | .error _ => .arr []
        | .ok idlist => idlist

/-- Python `list.extend(v)` (line 239): iterates `v` — a list contributes
its elements, a string its characters, a dict its keys; non-iterables
raise `TypeError`. -/
def pyExtend (acc : List Json) (v : Json) : Except PyErr (List Json) :=
  match v with
  | .arr xs => .ok (acc ++ xs)
  | .str s => .ok (acc ++ s.data.map (fun c => Json.str c.toString))
  | .obj kvs => .ok (acc ++ kvs.map (fun p => Json.str p.1))
  | _ => .error .typeError

def pyHashable : Json → Bool
  | .arr _ => false
  | .obj _ => false
  | _ => true

/-- Key equality used by `dict.fromkeys`.  Numbers are compared by lexeme
here while Python compares them by value; no claim involves numeric
identifiers, and cross-type numeric/bool coincidences are likewise not
exercised. -/
def pyKeyEq : Json → Json → Bool
  | .null, .null => true
  | .bool a, .bool b => a == b
  | .num a, .num b => a == b
  | .str a, .str b => a == b
  | _, _ => false

def dedupFirstFuel : Nat → List Json → List Json
  | 0, _ => []
  | Nat.succ fuel, l =>
    match l with
    | [] => []
    | x :: xs => x :: dedupFirstFuel fuel (xs.filter (fun y => !(pyKeyEq y x)))

/-- First-occurrence deduplication, as performed by `dict.fromkeys`.  The
fuel `l.length + 1` always suffices: each step recurses on a sublist of
the tail. -/
def dedupFirst (l : List Json) : List Json :=
  dedupFirstFuel (l.length + 1) l

/-- `list(dict.fromkeys(all_pmids))[:5]` (line 242): keys must be
hashable (a list or dict element raises `TypeError`), duplicates collapse
onto their first occurrence, and the result is capped at 5. -/
def dedupCap (l : List Json) : Except PyErr (List Json) :=
  if l.all pyHashable then .ok ((dedupFirst l).take 5) else .error .typeError

/-- `",".join(pmids)` (line 127): every item must be a `str`, otherwise
`TypeError` — and this line runs before the `try` of `fetch_abstracts`. -/
def strList : List Json → Option (List String)
  | [] => some []
  | x :: xs =>
    match x.getStr, strList xs with
    | some s, some ss => some (s :: ss)
    | _, _ => none

def joinIds (pmids : List Json) : Except PyErr String :=
  match strList pmids with
  | some ss => .ok (String.intercalate "," ss)
  | none => .error .typeError

/-- `fetch_abstracts` (lines 121-159): empty input short-circuits before
any request; the request URL construction (the join) runs unguarded; the
fetch and parse work is wrapped in `try/except Exception`, which turns
any transport or decoding failure into the empty list. -/
def fetch_abstracts (pmids : List Json) (resp : FetchResp) :
    Except PyErr (List LitRecord) :=
  if pmids.isEmpty then .ok []
  else
    match joinIds pmids with
    | .error e => .error e
    | .ok _ =>
      .ok
        (match resp with
        | .err => []
        | .ok body => parseArticles body)

/-! ### `invoke_bedrock` (lines 163-204) -/

/-- Python `j[k]` on a parsed JSON value: `KeyError` on a dict without
the key, `TypeError` on anything that is not a dict (string indices must
be integers, and scalars are not subscriptable). -/
def pyIndexStr (j : Json) (k : String) : Except PyErr Json :=
  match j with
  | .obj kvs =>
    match alookup k kvs with
    | some v => .ok v
    | none => .error .keyError
  | _ => .error .typeError

/-- Python `j[n]` for a natural index: lists and strings index
positionally (`IndexError` out of range), dicts raise `KeyError`, scalars
`TypeError`. -/
def pyIndexNat (j : Json) (n : Nat) : Except PyErr Json :=
  match j with
  | .arr xs =>
    match xs[n]? with
    | some v => .ok v
    | none => .error .indexError
  | .str s =>
    match s.data[n]? with
    | some c => .ok (.str c.toString)
    | none => .error .indexError
  | .obj _ => .error .keyError
  | _ => .error .typeError

/-- Lines 197: `re.sub(r"```json|```", "", raw_text).strip()`. -/
def sanitizeRawText (raw : String) : String :=
  String.mk (pyStrip (stripFences raw.data))

/-- `invoke_bedrock` response handling (lines 191-204).  The prompt
assembly (lines 164-189) only shapes the request and cannot influence the
response value, which is supplied here as `BedrockResp`.  Both `except`
clauses re-raise, and envelope-shape errors match neither clause, so
every failure propagates to the caller. -/
def invoke_bedrock (resp : BedrockResp) : Except PyErr Json :=
  match resp with
  | .clientError => .error .clientError
  | .ok body =>
    match Json.parse body with
    | none => .error .jsonDecodeError
    | some result => do
      let content ← pyIndexStr result "content"
      let first ← pyIndexNat content 0
      let t ← pyIndexStr first "text"
      match t with
      | .str raw =>
        match Json.parse (sanitizeRawText raw) with
        | none => .error .jsonDecodeError
        | some j => .ok j
      | _ => .error .typeError

/-! ### `build_search_queries` (lines 53-97)

The Python function reads `user_data` with `.get` and per-field defaults;
the embedding carries each field as an `Option` and applies the same
defaults.  `bmi` is carried as a rational standing for the Python float —
every comparison the source makes on it is order-based. -/

structure UserData where
  smokingStatus : Option String := none
  alcoholConsumption : Option String := none
  bmi : Option Rat := none
  dietaryPattern : Option String := none
  familyHistory : Option (List String) := none
  age : Option Int := none
  sex : Option String := none

def build_search_queries (u : UserData) : List String :=
  let q1 := if u.smokingStatus = some "current" then
      ["smoking lung cancer risk factors epidemiology"] else []
  let q2 := if u.smokingStatus = some "former" then
      ["former smoker cancer risk reduction"] else []
  let alcohol := u.alcoholConsumption.getD "none"
  let q3 := if alcohol = "moderate" ∨ alcohol = "heavy" then
      ["alcohol consumption cancer risk liver colorectal"] else []
  let bmi := u.bmi.getD 22
  let q4 := if bmi ≥ 30 then ["obesity BMI cancer risk endometrial breast colorectal"]
      else if bmi ≥ 25 then ["overweight cancer risk metabolic syndrome"] else []
  let diet := u.dietaryPattern.getD ""
  let q5 := if diet = "western" then ["western diet processed food cancer risk"]
      else if diet = "mediterranean" ∨ diet = "vegetarian" ∨ diet = "vegan" then
        ["plant based diet cancer prevention"] else []
  let fh := u.familyHistory.getD []
  let q6 := (fh.filter (fun c => c ≠ "")).map
      (fun c => "hereditary " ++ c ++ " cancer genetic risk")
  let age := u.age.getD 40
  let sex := u.sex.getD "other"
  let q7 := if age ≥ 50 ∧ sex = "male" then
      ["prostate cancer age risk screening men"] else []
  let q8 := if age ≥ 40 ∧ sex = "female" then
      ["breast cancer age risk screening women mammography"] else []
  let q9 := if age ≥ 45 then
      ["colorectal cancer age risk colonoscopy screening"] else []
  let queries := q1 ++ q2 ++ q3 ++ q4 ++ q5 ++ q6 ++ q7 ++ q8 ++ q9
  (if queries = [] then ["lifestyle cancer risk prevention epidemiology"] else queries).take 3

/-! ### The handler pipeline (lines 208-275)

The CORS/OPTIONS envelope, header constants and body serialization are
transport plumbing outside the claims; responses here carry the status
code and the JSON value that the source passes to `json.dumps`. -/

structure HttpResp where
  statusCode : Nat
  body : Json

structure HandlerEnv where
  search : Nat → SearchResp
  fetch : FetchResp
  bedrock : BedrockResp
  requestId : String

/-- The serialization of one abstract record as attached at line 260. -/
def encodeRecord (r : LitRecord) : Json :=
  .obj
    [("title", .str r.title), ("abstract", .str r.abstract),
     ("url", .str r.url), ("doi", .str r.doi),
     ("year", match r.year with | some y => .str y | none => .null)]

def encodeRecords (rs : List LitRecord) : Json :=
  .arr (rs.map encodeRecord)

/-- Python `j[k] = v`: item assignment on a non-dict raises `TypeError`. -/
def pySetItem (j : Json) (k : String) (v : Json) : Except PyErr Json :=
  match j with
  | .obj kvs => .ok (.obj (insertKey kvs k v))
  | _ => .error .typeError

/-- Step 4 of the handler (lines 257-261): invoke inference, then attach
the retrieved abstracts and the invocation identifier to the returned
report. -/
def synthesize (abstracts : List LitRecord) (resp : BedrockResp)
    (requestId : String) : Except PyErr Json := do
  let llm ← invoke_bedrock resp
  let llm1 ← pySetItem llm "searchedAbstracts" (encodeRecords abstracts)
  pySetItem llm1 "timestamp" (.str requestId)

/-- Step 2 of the handler (lines 236-239): one search per query, results
accumulated with `extend`. -/
def gatherPmids (search : Nat → SearchResp) (n : Nat) : Except PyErr (List Json) :=
  (List.range n).foldlM (fun acc i => pyExtend acc (search_pubmed (search i))) []

def noAbstractsResponse : HttpResp :=
  { statusCode := 502
    body := .obj [("error", .str "No abstracts could be retrieved from PubMed")] }

/-- Abridged `str(e)` per exception class, used by the generic handler. -/
def pyErrStr : PyErr → String
  | .clientError => "ClientError"
  | .jsonDecodeError => "Expecting value"
  | .typeError => "TypeError"
  | .keyError => "KeyError"
  | .indexError => "IndexError"
  | .attributeError => "AttributeError"

/-- The catch-all `except Exception` branch (lines 269-275). -/
def genericFailure (e : PyErr) : HttpResp :=
  { statusCode := 500, body := .obj [("error", .str (pyErrStr e))] }

/-- The body of the handler `try` block from line 232 on, for an already
extracted `userData`. -/
def handler_pipeline (u : UserData) (env : HandlerEnv) : Except PyErr HttpResp := do
  let queries := build_search_queries u
  let raw ← gatherPmids env.search queries.length
  let all_pmids ← dedupCap raw
  let abstracts ← fetch_abstracts all_pmids env.fetch
  if abstracts.isEmpty then
    pure noAbstractsResponse
  else do
    let llm ← synthesize abstracts env.bedrock env.requestId
    pure { statusCode := 200, body := llm }

def handler (u : UserData) (env : HandlerEnv) : HttpResp :=
  match handler_pipeline u env with
  | .ok r => r
  | .error e => genericFailure e

/-! ### Report-shape predicates

The `AnalysisReport` shape is the OUTPUT FORMAT block of the system
prompt (lines 37-49): an object with an `insights` array and a
`disclaimer` string; each insight has `cancerType`, `riskLevel` in
low/moderate/high, `explanation`, `recommendation`, and a non-empty
`citations` array of title/url objects. -/

def lookupArr (k : String) (f : List (String × Json)) : Option (List Json) :=
  match alookup k f with
  | some (.arr xs) => some xs
  | _ => none

def lookupIsStr (k : String) (f : List (String × Json)) : Bool :=
  match alookup k f with
  | some (.str _) => true
  | _ => false

def citationOk : Json → Bool
  | .obj f => lookupIsStr "title" f && lookupIsStr "url" f
  | _ => false

/-- The insight carries at least one citation. -/
def insightCited : Json → Bool
  | .obj f => (lookupArr "citations" f).elim false (fun cs => !cs.isEmpty)
  | _ => false

def insightOk : Json → Bool
  | .obj f =>
    lookupIsStr "cancerType" f &&
    (match alookup "riskLevel" f with
     | some (.str s) => s == "low" || s == "moderate" || s == "high"
     | _ => false) &&
    lookupIsStr "explanation" f &&
    lookupIsStr "recommendation" f &&
    (lookupArr "citations" f).elim false (fun cs => !cs.isEmpty && cs.all citationOk)
  | _ => false

def isAnalysisReport : Json → Bool
  | .obj f =>
    (lookupArr "insights" f).elim false (fun ins => ins.all insightOk) &&
    lookupIsStr "disclaimer" f
  | _ => false

/-! ### Concrete test vectors used by witnesses and counterexamples -/

/-- A record block whose title element is present but empty. -/
def c1Xml : String :=
  "<PubmedArticle><ArticleTitle></ArticleTitle><AbstractText>A</AbstractText></PubmedArticle>"

def c1Record : LitRecord :=
  { title := "", abstract := "A",
    url := "https://pubmed.ncbi.nlm.nih.gov/unknown/",
    doi := "https://pubmed.ncbi.nlm.nih.gov/unknown/", year := none }

/-- A well-formed block with title and abstract but no PMID element. -/
def noPmidBlock : List Char :=
  "<ArticleTitle>Smoking and risk</ArticleTitle><AbstractText>Findings.</AbstractText>".data

def goodXml : String :=
  "<PubmedArticle><ArticleTitle>Smoking and risk</ArticleTitle><AbstractText>Findings.</AbstractText><PMID Version=\"1\">123</PMID></PubmedArticle>"

/-- A syntactically valid search response whose `idlist` holds a number
instead of a string. -/
def c3SearchBody : String := "\x7b\"esearchresult\": \x7b\"idlist\": [1]\x7d\x7d"

def c3Env : HandlerEnv :=
  { search := fun _ => .ok c3SearchBody, fetch := .ok "", bedrock := .clientError,
    requestId := "" }

def c7Profile : UserData :=
  { smokingStatus := some "current", age := some 30, sex := some "male",
    bmi := some 22, alcoholConsumption := some "none", dietaryPattern := some "",
    familyHistory := some [] }

def c8Env : HandlerEnv :=
  { search := fun _ => .err, fetch := .err, bedrock := .clientError, requestId := "req-0" }

def jsonEscapeChar (c : Char) : List Char :=
  if c = '"' then ['\\', '"'] else if c = '\\' then ['\\', '\\'] else [c]

def jsonEscape (s : String) : String :=
  String.mk (s.data.foldr (fun c acc => jsonEscapeChar c ++ acc) [])

def c2Abstracts : List LitRecord :=
  [{ title := "T", abstract := "A", url := "u", doi := "u", year := some "2020" }]

/-- A fenced inference reply containing a well-shaped report. -/
def c2Raw : String :=
  "```json \x7b\"insights\": [\x7b\"cancerType\": \"lung\", \"riskLevel\": \"high\", \"explanation\": \"e\", \"citations\": [\x7b\"title\": \"T\", \"url\": \"u\"\x7d], \"recommendation\": \"r\"\x7d], \"disclaimer\": \"d\"\x7d```"

/-- The service envelope wrapping `c2Raw` as its text payload. -/
def c2Body : String :=
  "\x7b\"content\": [\x7b\"text\": \"" ++ jsonEscape c2Raw ++ "\"\x7d]\x7d"

def c2Report : Json :=
  .obj
    [("insights", .arr
        [.obj
          [("cancerType", .str "lung"), ("riskLevel", .str "high"),
           ("explanation", .str "e"),
           ("citations", .arr [.obj [("title", .str "T"), ("url", .str "u")]]),
           ("recommendation", .str "r")]]),
     ("disclaimer", .str "d")]

def c1Block : List Char :=
  "<ArticleTitle></ArticleTitle><AbstractText>A</AbstractText>".data

def goodRecord : LitRecord :=
  { title := "Smoking and risk", abstract := "Findings.",
    url := "https://pubmed.ncbi.nlm.nih.gov/123/",
    doi := "https://pubmed.ncbi.nlm.nih.gov/123/", year := none }

def c6BadBody : String := "\x7b\"content\": [\x7b\"text\": \"not json\"\x7d]\x7d"

def c6GoodBody : String := "\x7b\"content\": [\x7b\"text\": \"```json[true]```\"\x7d]\x7d"

/-! ## General lemmas -/

theorem any_key_eq_isSome (k : String) (kvs : List (String × Json)) :
    kvs.any (fun p => p.1 == k) = (alookup k kvs).isSome := by
  induction kvs with
  | nil => rfl
  | cons p rest ih => by_cases hp : p.1 = k <;> simp [alookup, hp, ih]

theorem alookup_append_of_none (k : String) (l1 l2 : List (String × Json))
    (h : alookup k l1 = none) : alookup k (l1 ++ l2) = alookup k l2 := by
  induction l1 with
  | nil => rfl
  | cons p rest ih =>
    by_cases hp : p.1 = k
    · simp [alookup, hp] at h
    · simp only [alookup, hp] at h ⊢
      simp only [List.cons_append, alookup, hp, if_false]
      exact ih h

theorem alookup_append_of_some (k : String) (l1 l2 : List (String × Json)) (w : Json)
    (h : alookup k l1 = some w) : alookup k (l1 ++ l2) = some w := by
  induction l1 with
  | nil => simp [alookup] at h
  | cons p rest ih =>
    by_cases hp : p.1 = k
    · simp only [alookup, hp, if_true] at h ⊢
      simpa [List.cons_append, alookup, hp] using h
    · simp only [alookup, hp, if_false] at h
      simp only [List.cons_append, alookup, hp, if_false]
      exact ih h

theorem alookup_map_replace (k : String) (v : Json) (kvs : List (String × Json)) :
    alookup k (kvs.map (fun p => if p.1 = k then (k, v) else p)) =
      (alookup k kvs).map (fun _ => v) := by
  induction kvs with
  | nil => rfl
  | cons p rest ih =>
    by_cases h : p.1 = k
    · simp [alookup, h]
    · simp [alookup, h, ih]

theorem alookup_map_replace_ne (k k' : String) (v : Json) (kvs : List (String × Json))
    (hne : k' ≠ k) :
    alookup k' (kvs.map (fun p => if p.1 = k then (k, v) else p)) = alookup k' kvs := by
  induction kvs with
  | nil => rfl
  | cons p rest ih =>
    by_cases h : p.1 = k
    · have : p.1 ≠ k' := h ▸ fun hk => hne hk.symm
      simp [alookup, h, hne.symm, this, ih]
    · simp [alookup, h, ih]

theorem alookup_insertKey_self (kvs : List (String × Json)) (k : String) (v : Json) :
    alookup k (insertKey kvs k v) = some v := by
  unfold insertKey
  by_cases h : kvs.any (fun p => p.1 == k) = true
  · rw [if_pos h, alookup_map_replace]
    rw [any_key_eq_isSome] at h
    cases hl : alookup k kvs with
    | none => rw [hl] at h; simp at h
    | some w => simp
  · rw [if_neg h]
    rw [any_key_eq_isSome] at h
    have hnone : alookup k kvs = none := by
      cases hl : alookup k kvs with
      | none => rfl
      | some w => rw [hl] at h; simp at h
    rw [alookup_append_of_none _ _ _ hnone]
    simp [alookup]

theorem alookup_insertKey_ne (kvs : List (String × Json)) (k k' : String) (v : Json)
    (hne : k' ≠ k) : alookup k' (insertKey kvs k v) = alookup k' kvs := by
  unfold insertKey
  split
  · exact alookup_map_replace_ne _ _ _ _ hne
  · cases hl : alookup k' kvs with
    | none =>
      rw [alookup_append_of_none _ _ _ hl]
      have hk : ¬(k = k') := fun hk => hne hk.symm
      simp [alookup, hk]
    | some w => exact alookup_append_of_some _ _ _ _ hl

theorem lookupArr_insertKey_ne (f : List (String × Json)) (k k' : String) (v : Json)
    (hne : k' ≠ k) : lookupArr k' (insertKey f k v) = lookupArr k' f := by
  unfold lookupArr
  rw [alookup_insertKey_ne _ _ _ _ hne]

theorem encodeRecord_inj : Function.Injective encodeRecord := by
  intro r1 r2 h
  cases r1 with
  | mk t1 a1 u1 d1 y1 =>
    cases r2 with
    | mk t2 a2 u2 d2 y2 =>
      simp only [encodeRecord, Json.obj.injEq, List.cons.injEq, Prod.mk.injEq,
        Json.str.injEq, and_true, true_and] at h
      obtain ⟨h1, h2, h3, h4, h5⟩ := h
      cases y1 <;> cases y2 <;> simp_all

theorem encodeRecords_inj (l1 l2 : List LitRecord)
    (h : encodeRecords l1 = encodeRecords l2) : l1 = l2 := by
  simp only [encodeRecords, Json.arr.injEq] at h
  exact List.map_injective_iff.mpr encodeRecord_inj h

theorem pyKeyEq_refl (y : Json) (h : pyHashable y = true) : pyKeyEq y y = true := by
  cases y <;> simp_all [pyKeyEq, pyHashable]

theorem dedupFirstFuel_sublist (fuel : Nat) :
    ∀ l : List Json, (dedupFirstFuel fuel l).Sublist l := by
  induction fuel with
  | zero => intro l; simp [dedupFirstFuel]
  | succ fuel ih =>
    intro l
    match l with
    | [] => simp [dedupFirstFuel]
    | x :: xs =>
      simp only [dedupFirstFuel]
      exact ((ih _).trans (List.filter_sublist _)).cons₂ x

theorem dedupFirstFuel_pairwise (fuel : Nat) :
    ∀ l : List Json, (dedupFirstFuel fuel l).Pairwise (fun a b => pyKeyEq b a = false) := by
  induction fuel with
  | zero => intro l; simp [dedupFirstFuel]
  | succ fuel ih =>
    intro l
    match l with
    | [] => simp [dedupFirstFuel]
    | x :: xs =>
      simp only [dedupFirstFuel]
      refine List.Pairwise.cons ?_ (ih _)
      intro y hy
      have hmem := (dedupFirstFuel_sublist fuel _).subset hy
      have := List.of_mem_filter hmem
      simpa using this

theorem dedupFirstFuel_cover (fuel : Nat) :
    ∀ l : List Json, l.length < fuel →
      ∀ y ∈ l, pyHashable y = true →
        ∃ z ∈ dedupFirstFuel fuel l, pyKeyEq y z = true := by
  induction fuel with
  | zero => intro l h; omega
  | succ fuel ih =>
    intro l hlen y hy hhash
    match l, hy with
    | x :: xs, hy =>
      simp only [dedupFirstFuel]
      rcases List.mem_cons.mp hy with rfl | hytail
      · exact ⟨y, List.mem_cons_self _ _, pyKeyEq_refl y hhash⟩
      · by_cases hx : pyKeyEq y x = true
        · exact ⟨x, List.mem_cons_self _ _, hx⟩
        · have hyf : y ∈ xs.filter (fun z => !(pyKeyEq z x)) :=
            List.mem_filter.mpr ⟨hytail, by simp [hx]⟩
          have hlen' : (xs.filter (fun z => !(pyKeyEq z x))).length < fuel := by
            have h1 := List.length_filter_le (fun z => !(pyKeyEq z x)) xs
            have h2 : xs.length + 1 < fuel + 1 := by simpa using hlen
            omega
          obtain ⟨z, hz, hzeq⟩ := ih _ hlen' y hyf hhash
          exact ⟨z, List.mem_cons_of_mem _ hz, hzeq⟩

theorem mem_ite_singleton {q a : String} {c : Prop} [Decidable c]
    (h : q ∈ if c then [a] else []) : q = a := by
  split at h
  · simpa using h
  · simp at h

theorem mem_ite_pair {q a b : String} {c1 c2 : Prop} [Decidable c1] [Decidable c2]
    (h : q ∈ if c1 then [a] else if c2 then [b] else []) : q = a ∨ q = b := by
  split at h
  · exact Or.inl (by simpa using h)
  · split at h
    · exact Or.inr (by simpa using h)
    · simp at h

theorem strList_ok : ∀ pmids : List Json, (∀ x ∈ pmids, x.isStr = true) →
    ∃ ss, strList pmids = some ss := by
  intro pmids
  induction pmids with
  | nil => exact fun _ => ⟨[], rfl⟩
  | cons x xs ih =>
    intro h
    have hx := h x (List.mem_cons_self _ _)
    obtain ⟨s, hsx⟩ : ∃ s, Json.getStr x = some s := by
      cases x <;> simp_all [Json.isStr, Json.getStr]
    obtain ⟨ss, hss⟩ := ih (fun y hy => h y (List.mem_cons_of_mem _ hy))
    exact ⟨s :: ss, by simp [strList, hsx, hss]⟩

theorem joinIds_ok (pmids : List Json) (h : ∀ x ∈ pmids, x.isStr = true) :
    ∃ s, joinIds pmids = .ok s := by
  unfold joinIds
  obtain ⟨ss, hss⟩ := strList_ok pmids h
  rw [hss]
  exact ⟨_, rfl⟩

theorem parseArticle_url_doi {article : List Char} {r : LitRecord}
    (h : parseArticle article = some r) :
    r.doi = r.url ∧ ∃ p, r.url = pubmedRecordUrl p := by
  simp only [parseArticle] at h
  split at h
  · rw [Option.some_inj] at h
    subst h
    exact ⟨rfl, _, rfl⟩
  · exact absurd h (by simp)

theorem insightOk_cited {i : Json} (h : insightOk i = true) : insightCited i = true := by
  cases i with
  | obj f =>
    simp only [insightOk, Bool.and_eq_true] at h
    obtain ⟨-, hc⟩ := h
    cases hlk : lookupArr "citations" f with
    | none => rw [hlk] at hc; simp at hc
    | some cs =>
      rw [hlk] at hc
      simp only [Option.elim, Bool.and_eq_true] at hc
      simp [insightCited, hlk, hc.1]
  | null => exact absurd h (by simp [insightOk])
  | bool b => exact absurd h (by simp [insightOk])
  | num s => exact absurd h (by simp [insightOk])
  | str s => exact absurd h (by simp [insightOk])
  | arr xs => exact absurd h (by simp [insightOk])

theorem pyBind_ok {α β : Type} (a : α) (f : α → Except PyErr β) :
    ((Except.ok a : Except PyErr α) >>= f) = f a := rfl

theorem take3_fallback_length (qs : List String) (f : String) :
    1 ≤ ((if qs = [] then [f] else qs).take 3).length
    ∧ ((if qs = [] then [f] else qs).take 3).length ≤ 3 := by
  split
  · simp
  · rename_i h
    rw [List.length_take]
    have := List.length_pos.mpr h
    omega

theorem mem_fallback {q f : String} {qs : List String}
    (h : q ∈ (if qs = [] then [f] else qs)) : q = f ∨ q ∈ qs := by
  split at h
  · exact Or.inl (List.mem_singleton.mp h)
  · exact Or.inr h

theorem append3_ne_empty (a c b : String) (ha : a ≠ "") : a ++ c ++ b ≠ "" := by
  intro h
  have hl : (a ++ c ++ b).length = 0 := by rw [h]; rfl
  rw [String.length_append, String.length_append] at hl
  have ha0 : a.length = 0 := by omega
  have hdata : a.data = [] := List.length_eq_zero.mp ha0
  apply ha
  cases a with
  | mk l =>
    have hleq : l = [] := hdata
    rw [hleq]

/-! ## Claims -/

/-- C1 (counterexample): the parse step does not enforce non-emptiness of
the extracted text: a block whose `ArticleTitle` element is present but
empty is kept with `title = ""` rather than dropped. -/
theorem c1_counterexample_empty_title_kept :
    parseArticles c1Xml = [c1Record]
    ∧ ¬ (∀ r ∈ parseArticles c1Xml, r.title ≠ "" ∧ r.abstract ≠ "") := by
  refine ⟨rfl, fun h => ?_⟩
  have hm : c1Record ∈ parseArticles c1Xml := by
    rw [show parseArticles c1Xml = [c1Record] from rfl]
    exact List.mem_singleton_self _
  exact (h c1Record hm).1 rfl

/-- C1 (amended): a record block is dropped exactly when its title or
abstract element is absent; when both are present the record is kept,
its title and abstract being the markup-stripped, whitespace-trimmed
element content — which may be the empty string. -/
theorem c1_amended_drop_iff (article : List Char) :
    (parseArticle article = none ↔
      searchBetween ("<ArticleTitle>".data) ("</ArticleTitle>".data) article = none ∨
      searchTag3 ("<AbstractText".data) (">".data) ("</AbstractText>".data) article = none)
    ∧ (∀ t ab,
        searchBetween ("<ArticleTitle>".data) ("</ArticleTitle>".data) article = some t →
        searchTag3 ("<AbstractText".data) (">".data) ("</AbstractText>".data) article = some ab →
        ∃ r, parseArticle article = some r
          ∧ r.title = String.mk (pyStrip (stripTags t))
          ∧ r.abstract = String.mk (pyStrip (stripTags ab))) := by
  constructor
  · cases ht : searchBetween ("<ArticleTitle>".data) ("</ArticleTitle>".data) article with
    | none => simp [parseArticle, ht]
    | some t =>
      cases hab : searchTag3 ("<AbstractText".data) (">".data) ("</AbstractText>".data) article with
      | none => simp [parseArticle, ht, hab]
      | some ab => simp [parseArticle, ht, hab]
  · intro t ab ht hab
    simp only [parseArticle, ht, hab]
    exact ⟨_, rfl, rfl, rfl⟩

theorem c1_amended_drop_iff_witness :
    ∃ r, parseArticle c1Block = some r
      ∧ r.title = String.mk (pyStrip (stripTags "".data))
      ∧ r.abstract = String.mk (pyStrip (stripTags "A".data)) :=
  (c1_amended_drop_iff c1Block).2 "".data "A".data rfl rfl

/-- C3 (counterexample): a syntactically valid search response whose
`idlist` holds a number is passed through by `search_pubmed`;
`fetch_abstracts` then raises `TypeError` from the identifier join that
runs before its `try` block, and the handler falls into the generic 500
path — the retrieval stage is not exception-free for all malformed
responses. -/
theorem c3_counterexample_typeerror :
    search_pubmed (.ok c3SearchBody) = .arr [.num "1"]
    ∧ fetch_abstracts [.num "1"] (.ok "") = .error .typeError
    ∧ handler {} c3Env = genericFailure .typeError :=
  ⟨rfl, rfl, rfl⟩

/-- C3 (amended): `search_pubmed` never raises — transport errors and
unparseable or non-dict bodies degrade to an empty identifier list for
that query alone; and provided every identifier is a string (as every
well-typed search response yields), `fetch_abstracts` never raises
either, any guarded fetch failure degrading to the empty evidence set.
Non-string identifiers from a malformed search response, however, make
`fetch_abstracts` raise `TypeError` (see the counterexample). -/
theorem c3_amended_degradation :
    (search_pubmed .err = .arr [])
    ∧ (∀ body, Json.parse body = none → search_pubmed (.ok body) = .arr [])
    ∧ (∀ body j, Json.parse body = some j → j.isObj = false →
        search_pubmed (.ok body) = .arr [])
    ∧ (∀ pmids : List Json, (∀ x ∈ pmids, x.isStr = true) →
        (fetch_abstracts pmids .err = .ok [])
        ∧ ∀ body, ∃ recs, fetch_abstracts pmids (.ok body) = .ok recs) := by
  refine ⟨rfl, ?_, ?_, ?_⟩
  · intro body h
    simp only [search_pubmed]
    rw [h]
  · intro body j hj hobj
    simp only [search_pubmed]
    rw [hj]
    cases j <;> simp_all [Json.isObj, pyDictGet]
  · intro pmids hstr
    by_cases hemp : pmids.isEmpty = true
    · exact ⟨by unfold fetch_abstracts; rw [if_pos hemp],
        fun body => ⟨[], by unfold fetch_abstracts; rw [if_pos hemp]⟩⟩
    · obtain ⟨s, hs⟩ := joinIds_ok pmids hstr
      exact ⟨by unfold fetch_abstracts; rw [if_neg hemp, hs],
        fun body => ⟨parseArticles body, by unfold fetch_abstracts; rw [if_neg hemp, hs]⟩⟩

theorem c3_amended_degradation_witness :
    search_pubmed (.ok "garbage") = .arr []
    ∧ search_pubmed (.ok "[1, 2]") = .arr []
    ∧ fetch_abstracts [Json.str "9"] .err = .ok [] := by
  refine ⟨?_, ?_, ?_⟩
  · exact c3_amended_degradation.2.1 "garbage" rfl
  · exact c3_amended_degradation.2.2.1 "[1, 2]" (.arr [.num "1", .num "2"]) rfl rfl
  · exact (c3_amended_degradation.2.2.2 [Json.str "9"]
      (fun x hx => by rw [List.mem_singleton.mp hx]; rfl)).1

theorem dedupFirstFuel_congr : ∀ (fuel fuel' : Nat) (l : List Json),
    l.length < fuel → l.length < fuel' →
    dedupFirstFuel fuel l = dedupFirstFuel fuel' l := by
  intro fuel
  induction fuel with
  | zero => intro fuel' l h _; omega
  | succ fuel ih =>
    intro fuel' l h h'
    match fuel', l with
    | 0, l => omega
    | fuel' + 1, [] => rfl
    | fuel' + 1, x :: xs =>
      simp only [dedupFirstFuel]
      refine congrArg _ (ih _ _ ?_ ?_)
      · have := List.length_filter_le (fun y => !(pyKeyEq y x)) xs
        simp only [List.length_cons] at h
        omega
      · have := List.length_filter_le (fun y => !(pyKeyEq y x)) xs
        simp only [List.length_cons] at h'
        omega

theorem dedupFirst_cons (x : Json) (xs : List Json) :
    dedupFirst (x :: xs) = x :: dedupFirst (xs.filter (fun y => !(pyKeyEq y x))) := by
  show dedupFirstFuel ((x :: xs).length + 1) (x :: xs) = _
  have hstep : dedupFirstFuel ((x :: xs).length + 1) (x :: xs) =
      x :: dedupFirstFuel (xs.length + 1) (xs.filter (fun y => !(pyKeyEq y x))) := rfl
  rw [hstep]
  refine congrArg _ (dedupFirstFuel_congr _ _ _ ?_ ?_)
  · exact Nat.lt_succ_of_le (List.length_filter_le _ _)
  · exact Nat.lt_succ_self _

/-- C4: for every profile, `build_search_queries` returns between 1 and 3
queries, all non-empty, and identical profiles always yield identical
query lists (the planner is a pure function of the profile). -/
theorem c4_queryplanner_bounds (u : UserData) :
    (1 ≤ (build_search_queries u).length
      ∧ (build_search_queries u).length ≤ 3
      ∧ ∀ q ∈ build_search_queries u, q ≠ "")
    ∧ ∀ v, u = v → build_search_queries u = build_search_queries v := by
  refine ⟨⟨?_, ?_, ?_⟩, fun v h => by rw [h]⟩
  · simp only [build_search_queries]
    exact (take3_fallback_length _ _).1
  · simp only [build_search_queries]
    exact (take3_fallback_length _ _).2
  · intro q hq
    simp only [build_search_queries] at hq
    have hq2 := List.mem_of_mem_take hq
    rcases mem_fallback hq2 with h0|h0
    · rw [h0]
      decide
    · simp only [List.mem_append, or_assoc] at h0
      rcases h0 with h|h|h|h|h|h|h|h|h
      · rw [mem_ite_singleton h]; decide
      · rw [mem_ite_singleton h]; decide
      · rw [mem_ite_singleton h]; decide
      · rcases mem_ite_pair h with h2|h2 <;> rw [h2] <;> decide
      · rcases mem_ite_pair h with h2|h2 <;> rw [h2] <;> decide
      · obtain ⟨c, hc, rfl⟩ := List.mem_map.mp h
        exact append3_ne_empty _ _ _ (by decide)
      · rw [mem_ite_singleton h]; decide
      · rw [mem_ite_singleton h]; decide
      · rw [mem_ite_singleton h]; decide

theorem c4_queryplanner_bounds_witness :
    (1 ≤ (build_search_queries {}).length
      ∧ (build_search_queries {}).length ≤ 3
      ∧ ∀ q ∈ build_search_queries ({} : UserData), q ≠ "")
    ∧ build_search_queries ({} : UserData) = build_search_queries {} :=
  ⟨(c4_queryplanner_bounds {}).1, (c4_queryplanner_bounds {}).2 {} rfl⟩

/-- C5: identifier deduplication concatenates per-query lists in order,
removes duplicates keeping the first occurrence, and caps the result at
5; search results [A,B] and [B,C] deduplicate to [A,B,C]. -/
theorem c5_dedupe_order (A B C : String) (hAB : A ≠ B) (hAC : A ≠ C) (hBC : B ≠ C) :
    (pyExtend [] (.arr [.str A, .str B]) = .ok [.str A, .str B])
    ∧ (pyExtend [.str A, .str B] (.arr [.str B, .str C]) =
        .ok [.str A, .str B, .str B, .str C])
    ∧ dedupCap [.str A, .str B, .str B, .str C] = .ok [.str A, .str B, .str C]
    ∧ (∀ l out, dedupCap l = .ok out →
        out = (dedupFirst l).take 5
        ∧ out.length ≤ 5
        ∧ (dedupFirst l).Sublist l
        ∧ out.Pairwise (fun a b => pyKeyEq b a = false)
        ∧ ∀ y ∈ l, pyHashable y = true → ∃ z ∈ dedupFirst l, pyKeyEq y z = true) := by
  refine ⟨rfl, rfl, ?_, ?_⟩
  · have hBA : (B == A) = false := beq_eq_false_iff_ne.mpr (Ne.symm hAB)
    have hCA : (C == A) = false := beq_eq_false_iff_ne.mpr (Ne.symm hAC)
    have hCB : (C == B) = false := beq_eq_false_iff_ne.mpr (Ne.symm hBC)
    have hall : ([Json.str A, Json.str B, Json.str B, Json.str C].all pyHashable) = true := rfl
    have e1 : dedupCap [Json.str A, Json.str B, Json.str B, Json.str C] =
        .ok ((dedupFirst [Json.str A, Json.str B, Json.str B, Json.str C]).take 5) := by
      unfold dedupCap
      rw [if_pos hall]
    rw [e1, dedupFirst_cons]
    have f1 : [Json.str B, Json.str B, Json.str C].filter
        (fun y => !(pyKeyEq y (Json.str A))) = [Json.str B, Json.str B, Json.str C] := by
      simp [List.filter, pyKeyEq, hBA, hCA]
    rw [f1, dedupFirst_cons]
    have f2 : [Json.str B, Json.str C].filter
        (fun y => !(pyKeyEq y (Json.str B))) = [Json.str C] := by
      simp [List.filter, pyKeyEq, hCB]
    rw [f2, dedupFirst_cons]
    rfl
  · intro l out h
    unfold dedupCap at h
    split at h
    · rw [Except.ok.injEq] at h
      subst h
      refine ⟨rfl, ?_, ?_, ?_, ?_⟩
      · rw [List.length_take]; omega
      · exact dedupFirstFuel_sublist _ _
      · exact (dedupFirstFuel_pairwise _ _).sublist (List.take_sublist _ _)
      · intro y hy hh
        exact dedupFirstFuel_cover _ _ (Nat.lt_succ_self _) y hy hh
    · exact absurd h (by simp)

theorem c5_dedupe_order_witness :
    dedupCap [Json.str "11", Json.str "22", Json.str "22", Json.str "33"] =
      .ok [Json.str "11", Json.str "22", Json.str "33"] :=
  (c5_dedupe_order "11" "22" "33" (by decide) (by decide) (by decide)).2.2.1

/-- C7: the smoking-only profile yields exactly one query, which contains
the substring "smoking"; no fallback is appended since the list is
non-empty. -/
theorem c7_smoking_profile_single_query :
    build_search_queries c7Profile = ["smoking lung cancer risk factors epidemiology"]
    ∧ (build_search_queries c7Profile).length = 1
    ∧ containsSub "smoking" ((build_search_queries c7Profile).headD "") = true :=
  ⟨rfl, rfl, rfl⟩

/-- C6: when the inference text fails to parse as JSON after
fence-stripping, `invoke_bedrock` fails with the JSON-decode (format)
error and returns no partial report; when it parses, exactly that JSON
value is returned. -/
theorem c6_format_error (body raw : String)
    (hbody : Json.parse body =
      some (.obj [("content", .arr [.obj [("text", .str raw)]])])) :
    (Json.parse (sanitizeRawText raw) = none →
      invoke_bedrock (.ok body) = .error .jsonDecodeError)
    ∧ (∀ j, Json.parse (sanitizeRawText raw) = some j →
      invoke_bedrock (.ok body) = .ok j) := by
  have hred : invoke_bedrock (.ok body) =
      (match Json.parse (sanitizeRawText raw) with
       | none => .error PyErr.jsonDecodeError
       | some j => .ok j) := by
    simp only [invoke_bedrock]
    rw [hbody]
    rfl
  constructor
  · intro h
    rw [hred, h]
  · intro j h
    rw [hred, h]

theorem c6_format_error_witness :
    invoke_bedrock (.ok c6BadBody) = .error .jsonDecodeError
    ∧ invoke_bedrock (.ok c6GoodBody) = .ok (.arr [.bool true]) :=
  ⟨(c6_format_error c6BadBody "not json" rfl).1 rfl,
   (c6_format_error c6GoodBody "```json[true]```" rfl).2 (.arr [.bool true]) rfl⟩

/-- C8: when search+fetch+parse leave zero usable records, the handler
returns the distinct 502 insufficient-evidence response — not the
generic 500 failure — and the outcome is independent of the inference
service (synthesis is never consulted). -/
theorem c8_empty_evidence_502 (u : UserData) (env : HandlerEnv)
    (raw pm : List Json)
    (h1 : gatherPmids env.search (build_search_queries u).length = .ok raw)
    (h2 : dedupCap raw = .ok pm)
    (h3 : fetch_abstracts pm env.fetch = .ok []) :
    handler u env = noAbstractsResponse
    ∧ noAbstractsResponse.statusCode = 502
    ∧ (∀ b, handler u { env with bedrock := b } = noAbstractsResponse)
    ∧ (∀ e, (genericFailure e).statusCode ≠ noAbstractsResponse.statusCode) := by
  have key : ∀ b : BedrockResp,
      handler_pipeline u ⟨env.search, env.fetch, b, env.requestId⟩ =
        .ok noAbstractsResponse := by
    intro b
    simp only [handler_pipeline]
    rw [h1, pyBind_ok, h2, pyBind_ok, h3, pyBind_ok]
    rfl
  have henv : handler_pipeline u env = .ok noAbstractsResponse := key env.bedrock
  refine ⟨?_, rfl, ?_, ?_⟩
  · unfold handler
    rw [henv]
  · intro b
    unfold handler
    rw [show handler_pipeline u { env with bedrock := b } = .ok noAbstractsResponse from key b]
  · intro e
    simp [genericFailure, noAbstractsResponse]

theorem c8_empty_evidence_502_witness :
    handler {} c8Env = noAbstractsResponse :=
  (c8_empty_evidence_502 {} c8Env [] [] rfl rfl rfl).1

/-- C9: a record block carrying a title and an abstract but no parseable
PMID tag is still included, with the placeholder identifier `unknown`;
its url and doi are both `https://pubmed.ncbi.nlm.nih.gov/unknown/`. -/
theorem c9_unknown_pmid_placeholder (article : List Char) (t ab : List Char)
    (ht : searchBetween ("<ArticleTitle>".data) ("</ArticleTitle>".data) article = some t)
    (hab : searchTag3 ("<AbstractText".data) (">".data) ("</AbstractText>".data) article
      = some ab)
    (hpmid : searchBetweenNoNl ("<PMID Version=\"1\">".data) ("</PMID>".data) article
      = none) :
    ∃ r, parseArticle article = some r
      ∧ r.url = "https://pubmed.ncbi.nlm.nih.gov/unknown/"
      ∧ r.doi = "https://pubmed.ncbi.nlm.nih.gov/unknown/" := by
  simp only [parseArticle, ht, hab, hpmid]
  exact ⟨_, rfl, rfl, rfl⟩

theorem c9_unknown_pmid_placeholder_witness :
    ∃ r, parseArticle noPmidBlock = some r
      ∧ r.url = "https://pubmed.ncbi.nlm.nih.gov/unknown/"
      ∧ r.doi = "https://pubmed.ncbi.nlm.nih.gov/unknown/" :=
  c9_unknown_pmid_placeholder noPmidBlock _ _ rfl rfl rfl

/-- C10: every record produced by `fetch_abstracts` has its `doi` field
string-equal to its `url` field, both built from the record identifier as
the canonical record URL. -/
theorem c10_doi_equals_url (pmids : List Json) (resp : FetchResp)
    (recs : List LitRecord) (h : fetch_abstracts pmids resp = .ok recs) :
    ∀ r ∈ recs, r.doi = r.url ∧ ∃ p, r.url = pubmedRecordUrl p := by
  intro r hr
  unfold fetch_abstracts at h
  split at h
  · rw [Except.ok.injEq] at h
    subst h
    simp at hr
  · split at h
    · exact absurd h (by simp)
    · rw [Except.ok.injEq] at h
      subst h
      cases resp with
      | err => simp at hr
      | ok body =>
        obtain ⟨a, ha, hpa⟩ := List.mem_filterMap.mp hr
        exact parseArticle_url_doi hpa

theorem c10_doi_equals_url_witness :
    goodRecord.doi = goodRecord.url ∧ ∃ p, goodRecord.url = pubmedRecordUrl p :=
  c10_doi_equals_url [Json.str "9"] (.ok goodXml) [goodRecord] rfl goodRecord
    (List.mem_singleton_self _)

/-- C2: for every profile, non-empty evidence set and inference response
whose fence-stripped text parses as JSON of the AnalysisReport shape,
synthesis succeeds and returns a report whose attached
`searchedAbstracts` value is exactly the (injective) encoding of the
input evidence set, and whose insights all carry at least one
citation. -/
theorem c2_synthesis_grounded (_u : UserData) (abstracts : List LitRecord)
    (body raw reqId : String) (j : Json)
    (_hne : abstracts ≠ [])
    (hbody : Json.parse body =
      some (.obj [("content", .arr [.obj [("text", .str raw)]])]))
    (hj : Json.parse (sanitizeRawText raw) = some j)
    (hshape : isAnalysisReport j = true) :
    ∃ fields, synthesize abstracts (.ok body) reqId = .ok (.obj fields)
      ∧ alookup "searchedAbstracts" fields = some (encodeRecords abstracts)
      ∧ (∀ l1 l2, encodeRecords l1 = encodeRecords l2 → l1 = l2)
      ∧ ∃ ins, lookupArr "insights" fields = some ins
          ∧ ∀ i ∈ ins, insightCited i = true := by
  have hinv : invoke_bedrock (.ok body) = .ok j := by
    have hred : invoke_bedrock (.ok body) =
        (match Json.parse (sanitizeRawText raw) with
         | none => .error PyErr.jsonDecodeError
         | some v => .ok v) := by
      simp only [invoke_bedrock]
      rw [hbody]
      rfl
    rw [hred, hj]
  obtain ⟨f, rfl⟩ : ∃ f, j = Json.obj f := by
    cases j with
    | obj f => exact ⟨f, rfl⟩
    | null => exact absurd hshape (by simp [isAnalysisReport])
    | bool b => exact absurd hshape (by simp [isAnalysisReport])
    | num s => exact absurd hshape (by simp [isAnalysisReport])
    | str s => exact absurd hshape (by simp [isAnalysisReport])
    | arr xs => exact absurd hshape (by simp [isAnalysisReport])
  simp only [isAnalysisReport, Bool.and_eq_true] at hshape
  obtain ⟨hins, -⟩ := hshape
  refine ⟨insertKey (insertKey f "searchedAbstracts" (encodeRecords abstracts))
    "timestamp" (.str reqId), ?_, ?_, fun l1 l2 => encodeRecords_inj l1 l2, ?_⟩
  · unfold synthesize
    rw [hinv, pyBind_ok]
    rfl
  · rw [alookup_insertKey_ne _ _ _ _ (by decide)]
    exact alookup_insertKey_self _ _ _
  · cases hlk : lookupArr "insights" f with
    | none => rw [hlk] at hins; simp at hins
    | some ins =>
      rw [hlk] at hins
      simp only [Option.elim] at hins
      refine ⟨ins, ?_, ?_⟩
      · rw [lookupArr_insertKey_ne _ _ _ _ (by decide),
          lookupArr_insertKey_ne _ _ _ _ (by decide)]
        exact hlk
      · intro i hi
        exact insightOk_cited (List.all_eq_true.mp hins i hi)

theorem c2_synthesis_grounded_witness :
    ∃ fields, synthesize c2Abstracts (.ok c2Body) "req-1" = .ok (.obj fields)
      ∧ alookup "searchedAbstracts" fields = some (encodeRecords c2Abstracts)
      ∧ (∀ l1 l2, encodeRecords l1 = encodeRecords l2 → l1 = l2)
      ∧ ∃ ins, lookupArr "insights" fields = some ins
          ∧ ∀ i ∈ ins, insightCited i = true :=
  c2_synthesis_grounded {} c2Abstracts c2Body c2Raw "req-1" c2Report
    (by decide) rfl rfl rfl

end Oncogenie
